import Mathlib

/-!
# Verification of the hiclassprompt batch execution pipeline

Shallow embedding of the core batch-pipeline components of the repository:

* `src/core/budget-manager.ts`   — `BudgetManager` (limits, alerts, `canAfford`)
* `src/core/cost-tracker.ts`     — cost records and window/provider aggregation
* `src/core/retry-logic.ts`      — `RetryLogic.execute`, `CircuitBreaker`
* `src/core/batch-result-manager.ts` — JSONL result log, session checkpoint
* `src/cli/commands/batch.ts`    — the per-item processing pipeline

Numbers that are JavaScript `number`s are modelled as `ℚ` (the comparisons
the claims exercise coincide with IEEE-754 evaluation at the values used);
`Date` values are modelled as integer epoch milliseconds.
-/

/-- AI provider identifiers, from `src/types/provider.types.ts`. -/
inductive AIProvider
  | gemini
  | claude
  | openai
  | bedrock
deriving DecidableEq, Repr

/-- One cost record, the fields of `CostRecord` (`cost-tracker.ts`) that the
budget logic reads: provider, timestamp and USD cost. -/
structure CostRecord where
  provider : AIProvider
  timestamp : ℤ
  costUsd : ℚ
deriving DecidableEq, Repr

/-- Alert kind: `'warning' | 'exceeded'` (`budget-manager.ts`). -/
inductive AlertType
  | warning
  | exceeded
deriving DecidableEq, Repr

/-- Alert level: `'daily' | 'weekly' | 'monthly' | 'per-request' | 'provider'`. -/
inductive AlertLevel
  | daily
  | weekly
  | monthly
  | perRequest
  | provider
deriving DecidableEq, Repr

/-- A budget alert (`BudgetAlert` in `budget-manager.ts`); the human-readable
`message` string is omitted, every datum it is built from is kept. -/
structure BudgetAlert where
  type : AlertType
  level : AlertLevel
  provider : Option AIProvider := none
  currentSpend : ℚ
  limit : ℚ
  percentage : ℚ
  timestamp : ℤ
deriving DecidableEq, Repr

/-- Budget limit configuration (`BudgetLimit` in `budget-manager.ts`).
`providerLimits` is a total function to `Option ℚ`, mirroring the partial
record. -/
structure BudgetLimit where
  dailyLimit : Option ℚ := none
  weeklyLimit : Option ℚ := none
  monthlyLimit : Option ℚ := none
  perRequestLimit : Option ℚ := none
  providerLimits : AIProvider → Option ℚ := fun _ => none

/-- JavaScript truthiness of an optional numeric limit: `undefined` and `0`
are falsy (the source guards every check with `if (this.limits.xLimit)`). -/
def jsTruthy (o : Option ℚ) : Bool :=
  match o with
  | none => false
  | some x => x != 0

/-- State of a `BudgetManager` together with the `CostTracker` records it
reads through `getStatus` (`budget-manager.ts` constructor fields). -/
structure BudgetManager where
  limits : BudgetLimit
  records : List CostRecord
  alerts : List BudgetAlert
  warningThreshold : ℚ := 80
  startOfDay : ℤ
  startOfWeek : ℤ
  startOfMonth : ℤ

/-- `CostTracker.getRecordsByDateRange`: records with
`startDate <= timestamp <= endDate`. -/
def BudgetManager.recordsInRange (bm : BudgetManager) (startDate endDate : ℤ) :
    List CostRecord :=
  bm.records.filter fun r => decide (startDate ≤ r.timestamp) && decide (r.timestamp ≤ endDate)

/-- `records.reduce((sum, r) => sum + r.costUsd, 0)`. -/
def sumCost (l : List CostRecord) : ℚ :=
  l.foldl (fun sum r => sum + r.costUsd) 0

/-- Daily spend in `getStatus`: sum of records from `startOfDay` to now. -/
def BudgetManager.dailySpent (bm : BudgetManager) (now : ℤ) : ℚ :=
  sumCost (bm.recordsInRange bm.startOfDay now)

/-- Weekly spend in `getStatus`. -/
def BudgetManager.weeklySpent (bm : BudgetManager) (now : ℤ) : ℚ :=
  sumCost (bm.recordsInRange bm.startOfWeek now)

/-- Monthly spend in `getStatus`. -/
def BudgetManager.monthlySpent (bm : BudgetManager) (now : ℤ) : ℚ :=
  sumCost (bm.recordsInRange bm.startOfMonth now)

/-- Per-provider lifetime spend, as aggregated by `CostTracker.getStats`
(`byProvider` map); `status.byProvider.get(provider)?.spent || 0` collapses a
missing entry (and a zero spend) to `0`, which equals this filtered sum. -/
def BudgetManager.providerSpent (bm : BudgetManager) (p : AIProvider) : ℚ :=
  sumCost (bm.records.filter fun r => decide (r.provider = p))

/-- `addAlert`: push onto the alert list. -/
def BudgetManager.addAlert (bm : BudgetManager) (a : BudgetAlert) : BudgetManager :=
  { bm with alerts := bm.alerts ++ [a] }

/-- One period's warning in `checkWarnings`: if the (truthy) ceiling is
configured and the projected spend sits in `[threshold%, 100%)`, one
`warning` alert. -/
def periodWarning (level : AlertLevel) (limit : Option ℚ)
    (threshold spent estimatedCost : ℚ) (now : ℤ) : List BudgetAlert :=
  match limit with
  | some l =>
    if l != 0 then
      let newSpend := spent + estimatedCost
      let pct := newSpend / l * 100
      if decide (threshold ≤ pct) && decide (pct < 100) then
        [{ type := .warning, level := level, currentSpend := newSpend, limit := l,
           percentage := pct, timestamp := now }]
      else []
    else []
  | none => []

/-- `checkWarnings(status, estimatedCost)`: appends the daily, weekly and
monthly warnings (in that order) computed from the `getStatus` spends. -/
def BudgetManager.checkWarnings (bm : BudgetManager) (estimatedCost : ℚ) (now : ℤ) :
    BudgetManager :=
  let ws :=
    periodWarning .daily bm.limits.dailyLimit bm.warningThreshold
      (bm.dailySpent now) estimatedCost now ++
    periodWarning .weekly bm.limits.weeklyLimit bm.warningThreshold
      (bm.weeklySpent now) estimatedCost now ++
    periodWarning .monthly bm.limits.monthlyLimit bm.warningThreshold
      (bm.monthlySpent now) estimatedCost now
  { bm with alerts := bm.alerts ++ ws }

/-- `BudgetManager.canAfford(provider, estimatedCost)`: the sequence of
per-request / daily / weekly / monthly / provider checks of
`budget-manager.ts` lines 91–184, each appending an `exceeded` alert and
returning `false` when its configured ceiling would be crossed; on success
`checkWarnings` runs and `true` is returned.  Returns the decision and the
manager with any appended alerts. -/
def BudgetManager.canAfford (bm : BudgetManager) (provider : AIProvider)
    (estimatedCost : ℚ) (now : ℤ) : Bool × BudgetManager :=
  if jsTruthy bm.limits.perRequestLimit &&
      decide (bm.limits.perRequestLimit.getD 0 < estimatedCost) then
    let l := bm.limits.perRequestLimit.getD 0
    (false, bm.addAlert
      { type := .exceeded, level := .perRequest, currentSpend := estimatedCost,
        limit := l, percentage := estimatedCost / l * 100, timestamp := now })
  else
    let newDaily := bm.dailySpent now + estimatedCost
    if jsTruthy bm.limits.dailyLimit && decide (bm.limits.dailyLimit.getD 0 < newDaily) then
      let l := bm.limits.dailyLimit.getD 0
      (false, bm.addAlert
        { type := .exceeded, level := .daily, currentSpend := newDaily,
          limit := l, percentage := newDaily / l * 100, timestamp := now })
    else
      let newWeekly := bm.weeklySpent now + estimatedCost
      if jsTruthy bm.limits.weeklyLimit && decide (bm.limits.weeklyLimit.getD 0 < newWeekly) then
        let l := bm.limits.weeklyLimit.getD 0
        (false, bm.addAlert
          { type := .exceeded, level := .weekly, currentSpend := newWeekly,
            limit := l, percentage := newWeekly / l * 100, timestamp := now })
      else
        let newMonthly := bm.monthlySpent now + estimatedCost
        if jsTruthy bm.limits.monthlyLimit &&
            decide (bm.limits.monthlyLimit.getD 0 < newMonthly) then
          let l := bm.limits.monthlyLimit.getD 0
          (false, bm.addAlert
            { type := .exceeded, level := .monthly, currentSpend := newMonthly,
              limit := l, percentage := newMonthly / l * 100, timestamp := now })
        else
          let newProviderSpent := bm.providerSpent provider + estimatedCost
          if jsTruthy (bm.limits.providerLimits provider) &&
              decide ((bm.limits.providerLimits provider).getD 0 < newProviderSpent) then
            let l := (bm.limits.providerLimits provider).getD 0
            (false, bm.addAlert
              { type := .exceeded, level := .provider, provider := some provider,
                currentSpend := newProviderSpent, limit := l,
                percentage := newProviderSpent / l * 100, timestamp := now })
          else
            (true, bm.checkWarnings estimatedCost now)

/-- A budget manager with a single active daily ceiling of 10 dollars and no
other limits (scenario of the spec's Budget Ledger testable property). -/
def c2Budget : BudgetManager :=
  { limits := { dailyLimit := some 10 }, records := [], alerts := [],
    startOfDay := 0, startOfWeek := 0, startOfMonth := 0 }

/-- One request of the scenario: ask `canAfford` for a 30-cent request and,
on approval, record the spend (as the pipeline does after a completed call). -/
def c2Step (bm : BudgetManager) : Bool × BudgetManager :=
  let r := bm.canAfford AIProvider.gemini (3/10) 0
  if r.1 then
    (true, { r.2 with records := r.2.records ++ [⟨AIProvider.gemini, 0, 3/10⟩] })
  else
    (false, r.2)

/-- Run `n` such requests in sequence, collecting each decision. -/
def c2Run : ℕ → List Bool × BudgetManager
  | 0 => ([], c2Budget)
  | n + 1 =>
    let p := c2Run n
    let s := c2Step p.2
    (p.1 ++ [s.1], s.2)

/-- All budget limits unset (`BudgetLimit` with every field `undefined`). -/
def BudgetLimit.noneSet (l : BudgetLimit) : Prop :=
  l.dailyLimit = none ∧ l.weeklyLimit = none ∧ l.monthlyLimit = none ∧
    l.perRequestLimit = none ∧ ∀ p, l.providerLimits p = none

/-- Circuit breaker state: `'closed' | 'open' | 'half-open'`
(`retry-logic.ts`); the `open` state is spelled `opened` because `open` is a
Lean keyword. -/
inductive CircuitState
  | closed
  | opened
  | halfOpen
deriving DecidableEq, Repr

/-- `CircuitBreakerOptions` with the constructor's `||`-defaults applied. -/
structure CircuitBreakerOptions where
  failureThreshold : ℕ := 5
  successThreshold : ℕ := 2
  timeout : ℤ := 60000
  resetTimeoutMs : ℤ := 60000
deriving DecidableEq, Repr

/-- The mutable fields of a `CircuitBreaker` instance. -/
structure CircuitBreaker where
  state : CircuitState := .closed
  failures : ℕ := 0
  successes : ℕ := 0
  lastFailureTime : Option ℤ := none
  nextRetryTime : Option ℤ := none
  options : CircuitBreakerOptions
deriving DecidableEq, Repr

/-- `CircuitBreaker.reset`: back to closed, counters and timestamps cleared. -/
def CircuitBreaker.reset (cb : CircuitBreaker) : CircuitBreaker :=
  { cb with state := .closed, failures := 0, successes := 0,
            lastFailureTime := none, nextRetryTime := none }

/-- `CircuitBreaker.trip`: go to open and schedule the next retry time. -/
def CircuitBreaker.trip (cb : CircuitBreaker) (now : ℤ) : CircuitBreaker :=
  { cb with state := .opened, nextRetryTime := some (now + cb.options.resetTimeoutMs) }

/-- `CircuitBreaker.onSuccess`: increment successes; in half-open, reset to
closed once the success threshold is reached; otherwise zero the failure
count. -/
def CircuitBreaker.onSuccess (cb : CircuitBreaker) : CircuitBreaker :=
  let cb1 := { cb with successes := cb.successes + 1 }
  if cb1.state = .halfOpen then
    if cb1.options.successThreshold ≤ cb1.successes then cb1.reset else cb1
  else
    { cb1 with failures := 0 }

/-- `CircuitBreaker.onFailure`: increment failures, stamp the time, zero the
success count, and trip once the failure threshold is reached. -/
def CircuitBreaker.onFailure (cb : CircuitBreaker) (now : ℤ) : CircuitBreaker :=
  let cb1 := { cb with failures := cb.failures + 1, lastFailureTime := some now,
                        successes := 0 }
  if cb1.options.failureThreshold ≤ cb1.failures then cb1.trip now else cb1

/-- `shouldAttemptReset`: `nextRetryTime !== undefined && Date.now() >= nextRetryTime`. -/
def CircuitBreaker.shouldAttemptReset (cb : CircuitBreaker) (now : ℤ) : Bool :=
  match cb.nextRetryTime with
  | none => false
  | some t => decide (t ≤ now)

/-- An `Error` as the retry/breaker code reads it: `message` and optional
`code`. -/
structure RError where
  message : String
  code : Option String := none
deriving DecidableEq, Repr

/-- The error thrown by an open breaker
(`Circuit breaker is open. Next retry at ...`). -/
def breakerOpenError (nextRetryTime : Option ℤ) : RError :=
  { message := "Circuit breaker is open. Next retry at " ++
      (match nextRetryTime with
       | some t => toString t
       | none => "unknown") }

/-- Result of one `CircuitBreaker.execute` call: whether the wrapped function
was invoked, the outcome, and the updated breaker. -/
structure CBExec (α : Type) where
  invoked : Bool
  result : Except RError α
  cb : CircuitBreaker
deriving Repr

/-- The `try/catch` body of `CircuitBreaker.execute`: invoke the function and
update breaker state from its outcome. -/
def CircuitBreaker.proceed {α : Type} (cb : CircuitBreaker) (now : ℤ)
    (fn : Except RError α) : CBExec α :=
  match fn with
  | .ok v => { invoked := true, result := .ok v, cb := cb.onSuccess }
  | .error e => { invoked := true, result := .error e, cb := cb.onFailure now }

/-- `CircuitBreaker.execute(fn)` with the wrapped function's outcome
predetermined by `fn`: in open state either reject without invoking or, once
the reset time has passed, transition to half-open and invoke. -/
def CircuitBreaker.execute {α : Type} (cb : CircuitBreaker) (now : ℤ)
    (fn : Except RError α) : CBExec α :=
  if cb.state = .opened then
    if cb.shouldAttemptReset now then
      CircuitBreaker.proceed { cb with state := .halfOpen } now fn
    else
      { invoked := false, result := .error (breakerOpenError cb.nextRetryTime), cb := cb }
  else
    cb.proceed now fn

/-- `RetryOptions` with `defaultOptions` as field defaults
(`retry-logic.ts` lines 48–55). -/
structure RetryOptions where
  maxAttempts : ℕ := 3
  initialDelayMs : ℚ := 1000
  maxDelayMs : ℚ := 30000
  backoffMultiplier : ℚ := 2
  retryableErrors : List String := ["RATE_LIMIT", "TIMEOUT", "NETWORK_ERROR",
    "ECONNRESET", "ETIMEDOUT"]

/-- Is `pat` a contiguous sublist of `l`? (explicit, since this toolchain
has no builtin list-infix boolean test) -/
def listInfixOf (pat l : List Char) : Bool :=
  match l with
  | [] => pat.isEmpty
  | _ :: rest => pat.isPrefixOf l || listInfixOf pat rest

/-- Substring test, modelling JavaScript `String.prototype.includes`. -/
def strContains (s pat : String) : Bool :=
  listInfixOf pat.toList s.toList

/-- `isRetryableError`: some configured pattern occurs (upper-cased) in the
message, or equals the upper-cased error code. -/
def isRetryableError (e : RError) (retryableErrors : List String) : Bool :=
  let errorMessage := e.message.toUpper
  let errorCode := e.code.map String.toUpper
  retryableErrors.any fun re =>
    let pat := re.toUpper
    strContains errorMessage pat || errorCode == some pat

/-- `calculateDelay`:
`Math.min(initialDelayMs * backoffMultiplier ^ (attempt - 1), maxDelayMs)`. -/
def calculateDelay (attempt : ℕ) (options : RetryOptions) : ℚ :=
  let delay := options.initialDelayMs * options.backoffMultiplier ^ (attempt - 1)
  min delay options.maxDelayMs

/-- The log calls `RetryLogic.execute` makes, in order. -/
inductive LogEvent
  | retrySucceeded (attempt : ℕ)
  | retrying (attempt : ℕ) (delayMs : ℚ)
  | requestFailed (attempt : ℕ) (retryable : Bool)
deriving DecidableEq, Repr

/-- Observable trace of one `RetryLogic.execute` run: how many times the
wrapped function was invoked, the backoff sleeps performed, the log events
emitted, and the returned/raised outcome. -/
structure RetryTrace (α : Type) where
  invocations : ℕ
  sleeps : List ℚ
  logs : List LogEvent
  result : Except RError α
deriving Repr

/-- `new Error('Max retry attempts exceeded')` — the post-loop throw. -/
def maxRetryExceededError : RError :=
  { message := "Max retry attempts exceeded" }

/-- The `for (attempt = 1; attempt <= maxAttempts; attempt++)` loop of
`RetryLogic.execute`, over a stateful unit of work `f` (state type `σ`
threads e.g. a circuit breaker through the attempts).  `fuel` counts the
remaining loop iterations and `attempt` is the loop variable; the branch
conditions are written exactly as in the source
(`!isRetryable || attempt >= opts.maxAttempts`). -/
def retryGo {α σ : Type} (opts : RetryOptions) (f : ℕ → σ → Except RError α × σ) :
    ℕ → ℕ → σ → Option RError → RetryTrace α × σ
  | _attempt, 0, s, lastError =>
    ({ invocations := 0, sleeps := [], logs := [],
       result := .error (lastError.getD maxRetryExceededError) }, s)
  | attempt, fuel + 1, s, _lastError =>
    match f attempt s with
    | (.ok v, s') =>
      ({ invocations := 1, sleeps := [],
         logs := if 1 < attempt then [.retrySucceeded attempt] else [],
         result := .ok v }, s')
    | (.error e, s') =>
      let isR := isRetryableError e opts.retryableErrors
      if !isR || opts.maxAttempts ≤ attempt then
        ({ invocations := 1, sleeps := [], logs := [.requestFailed attempt isR],
           result := .error e }, s')
      else
        let d := calculateDelay attempt opts
        let rest := retryGo opts f (attempt + 1) fuel s' (some e)
        ({ invocations := 1 + rest.1.invocations, sleeps := d :: rest.1.sleeps,
           logs := .retrying attempt d :: rest.1.logs, result := rest.1.result },
         rest.2)

/-- `RetryLogic.execute(fn, options)` for a stateless unit of work whose
outcome on invocation `i` is `outcomes i` (invocations are numbered from 1,
matching the loop's `attempt`). -/
def RetryLogic.execute {α : Type} (opts : RetryOptions)
    (outcomes : ℕ → Except RError α) : RetryTrace α :=
  (retryGo opts (fun i _ => (outcomes i, ())) 1 opts.maxAttempts () none).1

/-- Decimal digit character. -/
def digitChar (d : ℕ) : Char :=
  match d with
  | 0 => '0'
  | 1 => '1'
  | 2 => '2'
  | 3 => '3'
  | 4 => '4'
  | 5 => '5'
  | 6 => '6'
  | 7 => '7'
  | 8 => '8'
  | 9 => '9'
  | _ => '0'

/-- Lower-case hexadecimal digit character. -/
def hexChar (d : ℕ) : Char :=
  match d with
  | 10 => 'a'
  | 11 => 'b'
  | 12 => 'c'
  | 13 => 'd'
  | 14 => 'e'
  | 15 => 'f'
  | n => digitChar n

/-- Decimal digits of `n`, most significant first (fuel-based recursion). -/
def natDigitsAux : ℕ → ℕ → List Char
  | 0, _ => []
  | fuel + 1, n => if n < 10 then [digitChar n] else natDigitsAux fuel (n / 10) ++ [digitChar (n % 10)]

/-- Decimal rendering of a natural number. -/
def natStr (n : ℕ) : String :=
  String.mk (natDigitsAux (n + 1) n)

/-- Decimal rendering of an integer. -/
def intStr (i : ℤ) : String :=
  if i < 0 then "-" ++ natStr i.natAbs else natStr i.toNat

/-- Rendering of a rational number value.  JavaScript prints its binary
floats in decimal; the exact digit string is immaterial to every claim
(only that it contains no newline), so the rational is rendered as
`num` or `num/den`. -/
def ratStr (q : ℚ) : String :=
  if q.den = 1 then intStr q.num else intStr q.num ++ "/" ++ natStr q.den

/-- `JSON.stringify` escaping of one string character. -/
def escapeJsonChar (c : Char) : List Char :=
  if c = '"' then ['\\', '"']
  else if c = '\\' then ['\\', '\\']
  else if c = '\n' then ['\\', 'n']
  else if c = '\r' then ['\\', 'r']
  else if c = '\t' then ['\\', 't']
  else if c.toNat = 8 then ['\\', 'b']
  else if c.toNat = 12 then ['\\', 'f']
  else if c.toNat < 32 then ['\\', 'u', '0', '0', hexChar (c.toNat / 16), hexChar (c.toNat % 16)]
  else [c]

/-- `JSON.stringify` escaping of a character list. -/
def escapeChars : List Char → List Char
  | [] => []
  | c :: cs => escapeJsonChar c ++ escapeChars cs

/-- A JSON string literal: quoted and escaped. -/
def jsonQuote (s : String) : String :=
  "\"" ++ String.mk (escapeChars s.data) ++ "\""

/-- Comma-join rendered JSON fragments. -/
def joinComma : List String → String
  | [] => ""
  | [s] => s
  | s :: rest => s ++ "," ++ joinComma rest

/-- A rendered JSON object from already-rendered `key ↦ value` pairs
(insertion order, as `JSON.stringify` emits object literals). -/
def jsonObject (fields : List (String × String)) : String :=
  "\x7b" ++ joinComma (fields.map fun kv => jsonQuote kv.1 ++ ":" ++ kv.2) ++ "\x7d"

/-- A rendered JSON array from already-rendered elements. -/
def jsonArray (elems : List String) : String :=
  "[" ++ joinComma elems ++ "]"

/-- `Date` values serialize through `toISOString`; the exact ISO digits are
immaterial to every claim, so the epoch-milliseconds integer is quoted. -/
def jsonDateStr (t : ℤ) : String :=
  jsonQuote (intStr t)

/-- `ConfidenceLevel` (`classification.types.ts`). -/
inductive ConfidenceLevel
  | high
  | medium
  | low
deriving DecidableEq, Repr

/-- The wire string of a `ConfidenceLevel`. -/
def confidenceLevelString : ConfidenceLevel → String
  | .high => "high"
  | .medium => "medium"
  | .low => "low"

/-- The wire string of an `AIProvider`. -/
def providerString : AIProvider → String
  | .gemini => "gemini"
  | .claude => "claude"
  | .openai => "openai"
  | .bedrock => "bedrock"

/-- `CategoryResult` (`classification.types.ts`). -/
structure CategoryResult where
  category : String
  confidence : ℚ
  confidenceLevel : ConfidenceLevel
  reasoning : Option String := none
deriving DecidableEq, Repr

/-- `ClassificationResult` (`classification.types.ts`); the token counts are
flattened from the nested `tokens` object, `providerMetadata` is modelled as
an optional list of string pairs. -/
structure ClassificationResult where
  requestId : String
  provider : AIProvider
  categories : List CategoryResult
  primaryCategory : CategoryResult
  tokensInput : ℕ
  tokensOutput : ℕ
  tokensTotal : ℕ
  costUsd : ℚ
  latencyMs : ℚ
  timestamp : ℤ
  providerMetadata : Option (List (String × String)) := none
deriving DecidableEq, Repr

/-- Item lifecycle status (`batch-result-manager.ts` `BatchResultItem.status`). -/
inductive ItemStatus
  | pending
  | success
  | failed
  | skipped
deriving DecidableEq, Repr

/-- The wire string of an `ItemStatus`. -/
def statusString : ItemStatus → String
  | .pending => "pending"
  | .success => "success"
  | .failed => "failed"
  | .skipped => "skipped"

/-- The error payload of a failed/skipped record. -/
structure BatchError where
  message : String
  code : Option String := none
  timestamp : ℤ
deriving DecidableEq, Repr

/-- `BatchResultItem` (`batch-result-manager.ts`). -/
structure BatchResultItem where
  id : String
  imagePath : String
  result : Option ClassificationResult := none
  error : Option BatchError := none
  attempts : ℕ
  status : ItemStatus
  timestamp : ℤ
deriving DecidableEq, Repr

/-- Rendered fields of a `CategoryResult` (undefined `reasoning` omitted,
as `JSON.stringify` drops `undefined` members). -/
def categoryFields (c : CategoryResult) : List (String × String) :=
  [("category", jsonQuote c.category), ("confidence", ratStr c.confidence),
    ("confidenceLevel", jsonQuote (confidenceLevelString c.confidenceLevel))] ++
  (match c.reasoning with
   | none => []
   | some r => [("reasoning", jsonQuote r)])

/-- `JSON.stringify` of a `CategoryResult`. -/
def stringifyCategory (c : CategoryResult) : String :=
  jsonObject (categoryFields c)

/-- `JSON.stringify` of a `ClassificationResult`. -/
def stringifyClassificationResult (r : ClassificationResult) : String :=
  jsonObject
    ([("requestId", jsonQuote r.requestId),
      ("provider", jsonQuote (providerString r.provider)),
      ("categories", jsonArray (r.categories.map stringifyCategory)),
      ("primaryCategory", stringifyCategory r.primaryCategory),
      ("tokens", jsonObject [("input", natStr r.tokensInput),
        ("output", natStr r.tokensOutput), ("total", natStr r.tokensTotal)]),
      ("costUsd", ratStr r.costUsd),
      ("latencyMs", ratStr r.latencyMs),
      ("timestamp", jsonDateStr r.timestamp)] ++
     (match r.providerMetadata with
      | none => []
      | some md => [("providerMetadata", jsonObject (md.map fun kv => (kv.1, jsonQuote kv.2)))]))

/-- Rendered fields of the error payload `{...error, timestamp}` (undefined
`code` omitted). -/
def errorFields (e : BatchError) : List (String × String) :=
  [("message", jsonQuote e.message)] ++
  (match e.code with
   | none => []
   | some c => [("code", jsonQuote c)]) ++
  [("timestamp", jsonDateStr e.timestamp)]

/-- The key/rendered-value pairs `JSON.stringify` emits for a
`BatchResultItem`, in the insertion order of the object literals built by
`saveSuccess` / `saveFailure` / `saveSkipped` (absent optional members are
omitted). -/
def itemFields (it : BatchResultItem) : List (String × String) :=
  [("id", jsonQuote it.id), ("imagePath", jsonQuote it.imagePath)] ++
  (match it.result with
   | none => []
   | some r => [("result", stringifyClassificationResult r)]) ++
  (match it.error with
   | none => []
   | some e => [("error", jsonObject (errorFields e))]) ++
  [("attempts", natStr it.attempts),
   ("status", jsonQuote (statusString it.status)),
   ("timestamp", jsonDateStr it.timestamp)]

/-- `JSON.stringify(item)`. -/
def stringifyItem (it : BatchResultItem) : String :=
  jsonObject (itemFields it)

/-- The JSON object keys of a serialized record. -/
def itemKeys (it : BatchResultItem) : List String :=
  (itemFields it).map Prod.fst

/-- `writeToStream`: `this.outputStream.write(JSON.stringify(item) + '\n')`. -/
def writeLine (it : BatchResultItem) : String :=
  stringifyItem it ++ "\n"

/-- `BatchSession` (`batch-result-manager.ts`). -/
structure BatchSession where
  sessionId : String
  startTime : ℤ
  endTime : Option ℤ := none
  totalItems : ℕ
  completedItems : ℕ
  successfulItems : ℕ
  failedItems : ℕ
  skippedItems : ℕ
deriving DecidableEq, Repr

/-- State of a `BatchResultManager`: the session checkpoint, the in-memory
`results` map (association list in JS `Map` insertion/replace order), and the
sequence of records appended to the JSONL stream. -/
structure BatchResultManager where
  session : BatchSession
  results : List (String × BatchResultItem)
  stream : List BatchResultItem
deriving DecidableEq, Repr

/-- JS `Map.set`: replace in place if present, else append. -/
def mapSet (k : String) (v : BatchResultItem) :
    List (String × BatchResultItem) → List (String × BatchResultItem)
  | [] => [(k, v)]
  | (k', v') :: rest => if k' = k then (k, v) :: rest else (k', v') :: mapSet k v rest

/-- A fresh manager after `initialize(totalItems)`. -/
def BatchResultManager.initState (sessionId : String) (startTime : ℤ)
    (totalItems : ℕ) : BatchResultManager :=
  { session := { sessionId := sessionId, startTime := startTime,
                 totalItems := totalItems, completedItems := 0,
                 successfulItems := 0, failedItems := 0, skippedItems := 0 },
    results := [], stream := [] }

/-- `saveSuccess(id, imagePath, result)`. -/
def BatchResultManager.saveSuccess (m : BatchResultManager) (id imagePath : String)
    (result : ClassificationResult) (now : ℤ) : BatchResultManager :=
  let item : BatchResultItem :=
    { id := id, imagePath := imagePath, result := some result, attempts := 1,
      status := .success, timestamp := now }
  { session := { m.session with successfulItems := m.session.successfulItems + 1,
                                completedItems := m.session.completedItems + 1 },
    results := mapSet id item m.results,
    stream := m.stream ++ [item] }

/-- `saveFailure(id, imagePath, error, attempts = 1)`. -/
def BatchResultManager.saveFailure (m : BatchResultManager) (id imagePath : String)
    (message : String) (code : Option String) (attempts : ℕ) (now : ℤ) :
    BatchResultManager :=
  let item : BatchResultItem :=
    { id := id, imagePath := imagePath,
      error := some { message := message, code := code, timestamp := now },
      attempts := attempts, status := .failed, timestamp := now }
  { session := { m.session with failedItems := m.session.failedItems + 1,
                                completedItems := m.session.completedItems + 1 },
    results := mapSet id item m.results,
    stream := m.stream ++ [item] }

/-- `saveSkipped(id, imagePath, reason)`. -/
def BatchResultManager.saveSkipped (m : BatchResultManager) (id imagePath : String)
    (reason : String) (now : ℤ) : BatchResultManager :=
  let item : BatchResultItem :=
    { id := id, imagePath := imagePath,
      error := some { message := reason, code := some "SKIPPED", timestamp := now },
      attempts := 0, status := .skipped, timestamp := now }
  { session := { m.session with skippedItems := m.session.skippedItems + 1,
                                completedItems := m.session.completedItems + 1 },
    results := mapSet id item m.results,
    stream := m.stream ++ [item] }

/-- One call to a save method, for quantifying over call sequences. -/
inductive BatchOp
  | success (id imagePath : String) (result : ClassificationResult)
  | failure (id imagePath message : String) (code : Option String) (attempts : ℕ)
  | skip (id imagePath reason : String)

/-- Apply one save call. -/
def BatchResultManager.applyOp (m : BatchResultManager) (now : ℤ) :
    BatchOp → BatchResultManager
  | .success id imagePath result => m.saveSuccess id imagePath result now
  | .failure id imagePath message code attempts =>
    m.saveFailure id imagePath message code attempts now
  | .skip id imagePath reason => m.saveSkipped id imagePath reason now

/-- Fold a call sequence over a freshly initialized manager. -/
def runOps (totalItems : ℕ) (ops : List BatchOp) : BatchResultManager :=
  ops.foldl (fun m op => m.applyOp 0 op) (BatchResultManager.initState "session" 0 totalItems)

/-- A work item as the batch command sees it. -/
structure WorkItem where
  id : String
  imagePath : String
deriving DecidableEq, Repr

/-- `getUnprocessedItems(allItems)`: the items whose id has no recorded
outcome, in their original order. -/
def getUnprocessedItems (results : List (String × BatchResultItem))
    (allItems : List WorkItem) : List WorkItem :=
  allItems.filter fun item => !(results.any fun kv => kv.1 == item.id)

/-- The retry options `batchCommand` passes
(`{maxAttempts: 3, initialDelayMs: 1000, maxDelayMs: 10000}` merged with the
defaults). -/
def batchRetryOptions : RetryOptions :=
  { maxAttempts := 3, initialDelayMs := 1000, maxDelayMs := 10000 }

/-- The per-item task of `batchCommand` (batch.ts lines 154–190): run the
classification through `RetryLogic.execute` wrapping
`CircuitBreaker.execute`, then record the outcome with `saveSuccess` or
`saveFailure` (the latter called without an `attempts` argument, so `1`).
`classifyOut i` is the classification call's outcome on attempt `i` when it
is reached, `times i` the clock at attempt `i`.  Returns the updated result
manager, the updated breaker, and how many times the classification call was
actually invoked.  The budget manager is not consulted anywhere on this
path — the source never calls `canAfford` or `saveSkipped`. -/
def batchProcessItem (m : BatchResultManager) (cb : CircuitBreaker)
    (item : WorkItem) (classifyOut : ℕ → Except RError ClassificationResult)
    (times : ℕ → ℤ) (now : ℤ) : BatchResultManager × CircuitBreaker × ℕ :=
  let step : ℕ → CircuitBreaker × ℕ → Except RError ClassificationResult × (CircuitBreaker × ℕ) :=
    fun attempt st =>
      let r := st.1.execute (times attempt) (classifyOut attempt)
      (r.result, (r.cb, st.2 + (if r.invoked then 1 else 0)))
  let run := retryGo batchRetryOptions step 1 batchRetryOptions.maxAttempts (cb, 0) none
  match run.1.result with
  | .ok v => (m.saveSuccess item.id item.imagePath v now, run.2.1, run.2.2)
  | .error e => (m.saveFailure item.id item.imagePath e.message e.code 1 now, run.2.1, run.2.2)

/-- The item loop of `batchCommand`: every element of `batchResult.items` is
submitted (`batchResult.items.map((item) => queue.add(...))`); no filtering
against any previously recorded outcome happens, and the `--resume` option is
never read. -/
def batchRunAll (m : BatchResultManager) (cb : CircuitBreaker)
    (items : List WorkItem)
    (classifyFor : WorkItem → ℕ → Except RError ClassificationResult) :
    BatchResultManager × CircuitBreaker :=
  items.foldl
    (fun acc item =>
      let r := batchProcessItem acc.1 acc.2 item (classifyFor item) (fun _ => 0) 0
      (r.1, r.2.1))
    (m, cb)

/-- A freshly constructed breaker (`new CircuitBreaker(options)`). -/
def initBreaker (opts : CircuitBreakerOptions) : CircuitBreaker :=
  { options := opts }

/-- A generic transient execution error (its content never influences the
breaker's transitions). -/
def genericError : RError :=
  { message := "error" }

/-- `k` consecutive failed `execute` calls, call `j` happening at time
`times j`. -/
def failedCalls (cb : CircuitBreaker) (times : ℕ → ℤ) : ℕ → CircuitBreaker
  | 0 => cb
  | k + 1 => ((failedCalls cb times k).execute (times k)
      (.error genericError : Except RError Unit)).cb

/-- `k` consecutive successful `execute` calls, call `j` happening at time
`times j`. -/
def succCalls (cb : CircuitBreaker) (times : ℕ → ℤ) : ℕ → CircuitBreaker
  | 0 => cb
  | k + 1 => ((succCalls cb times k).execute (times k)
      (.ok () : Except RError Unit)).cb

/-- A concrete classification result used as the payload in concrete runs. -/
def sampleCat : CategoryResult :=
  { category := "Shoes", confidence := mkRat 9 10, confidenceLevel := .high }

/-- A concrete successful classification outcome. -/
def sampleResult : ClassificationResult :=
  { requestId := "r1", provider := .gemini, categories := [sampleCat],
    primaryCategory := sampleCat, tokensInput := 100, tokensOutput := 10,
    tokensTotal := 110, costUsd := mkRat 3 10, latencyMs := 250, timestamp := 0 }

/-- A budget manager whose single daily ceiling of 10 dollars is already
fully consumed by today's records: `canAfford` denies any further request. -/
def exhaustedBudget : BudgetManager :=
  { limits := { dailyLimit := some 10 },
    records := [⟨AIProvider.gemini, 0, 10⟩], alerts := [],
    startOfDay := 0, startOfWeek := 0, startOfMonth := 0 }

/-- A budget manager with no limit of any scope configured. -/
def emptyBudget : BudgetManager :=
  { limits := {}, records := [⟨AIProvider.claude, 0, 1000⟩], alerts := [],
    startOfDay := 0, startOfWeek := 0, startOfMonth := 0 }

/-- The checkpoint-count consistency invariant of a session record. -/
def sessionConsistent (m : BatchResultManager) : Prop :=
  m.session.successfulItems + m.session.failedItems + m.session.skippedItems =
    m.session.completedItems

/-- A string that cannot break a JSONL record across lines. -/
def lineSafe (s : String) : Prop := '\n' ∉ s.data

/-- **C1.** The claim says the orchestrator consults the Budget Ledger's
`canAfford` before dispatching each item and records budget-denied items as
Skipped with reason "budget exceeded".  The code has no such path:
`batchCommand` never constructs or consults a `BudgetManager`, and nothing in
the repository calls `saveSkipped`.  Concretely, at a state where the daily
budget is already exhausted — `canAfford` returns `false` — the per-item
pipeline still invokes the classification call (once) and records the item as
a success, with zero skipped items. -/
theorem c1_budget_check_not_consulted :
    (exhaustedBudget.canAfford AIProvider.gemini 1 0).1 = false ∧
    (batchProcessItem (BatchResultManager.initState "s" 0 1) (initBreaker {})
        ⟨"item-1", "a.jpg"⟩ (fun _ => .ok sampleResult) (fun _ => 0) 0).2.2 = 1 ∧
    (batchProcessItem (BatchResultManager.initState "s" 0 1) (initBreaker {})
        ⟨"item-1", "a.jpg"⟩ (fun _ => .ok sampleResult) (fun _ => 0) 0).1.stream.map
        (fun it => it.status) = [.success] ∧
    (batchProcessItem (BatchResultManager.initState "s" 0 1) (initBreaker {})
        ⟨"item-1", "a.jpg"⟩ (fun _ => .ok sampleResult) (fun _ => 0)
        0).1.session.skippedItems = 0 := by
  refine ⟨?_, ?_, ?_, ?_⟩ <;> with_unfolding_all rfl

/-- **C4.** The claim says resuming a batch whose log already records `K`
outcomes submits exactly `total - K` items and ends with `total` distinct-id
records.  The resume machinery exists (`getUnprocessedItems` would select
exactly the unrecorded items, here 1 of 2), but `batchCommand` never reads
the `--resume` flag nor any previous log: it initializes a fresh manager and
maps over all `batchResult.items`, while the output stream is opened with the
append flag.  With `total = 2` and `K = 1` prior outcome, the rerun appends
2 records, so the final log holds 3 records with the id `"a"` duplicated. -/
theorem c4_resume_not_wired :
    (getUnprocessedItems
      ((BatchResultManager.initState "s0" 0 2).saveSuccess "a" "a.jpg" sampleResult 0).results
      [⟨"a", "a.jpg"⟩, ⟨"b", "b.jpg"⟩] = [⟨"b", "b.jpg"⟩]) ∧
    (batchRunAll (BatchResultManager.initState "s1" 0 2) (initBreaker {})
      [⟨"a", "a.jpg"⟩, ⟨"b", "b.jpg"⟩] (fun _ _ => .ok sampleResult)).1.stream.length = 2 ∧
    ((((BatchResultManager.initState "s0" 0 2).saveSuccess "a" "a.jpg" sampleResult 0).stream ++
      (batchRunAll (BatchResultManager.initState "s1" 0 2) (initBreaker {})
        [⟨"a", "a.jpg"⟩, ⟨"b", "b.jpg"⟩] (fun _ _ => .ok sampleResult)).1.stream).map
        (fun it => it.id) = ["a", "a", "b"]) ∧
    ¬ ((((BatchResultManager.initState "s0" 0 2).saveSuccess "a" "a.jpg" sampleResult 0).stream ++
      (batchRunAll (BatchResultManager.initState "s1" 0 2) (initBreaker {})
        [⟨"a", "a.jpg"⟩, ⟨"b", "b.jpg"⟩] (fun _ _ => .ok sampleResult)).1.stream).map
        (fun it => it.id)).Nodup := by
  have hmap : ((((BatchResultManager.initState "s0" 0 2).saveSuccess "a" "a.jpg" sampleResult 0).stream ++
      (batchRunAll (BatchResultManager.initState "s1" 0 2) (initBreaker {})
        [⟨"a", "a.jpg"⟩, ⟨"b", "b.jpg"⟩] (fun _ _ => .ok sampleResult)).1.stream).map
        (fun it => it.id) = ["a", "a", "b"]) := by with_unfolding_all rfl
  refine ⟨by with_unfolding_all rfl, by with_unfolding_all rfl, hmap, ?_⟩
  rw [hmap]
  decide

/-- Each save call adds one completed item, one matching outcome counter, and
leaves `totalItems` untouched. -/
theorem applyOp_session (m : BatchResultManager) (now : ℤ) (op : BatchOp) :
    (m.applyOp now op).session.totalItems = m.session.totalItems ∧
    (m.applyOp now op).session.completedItems = m.session.completedItems + 1 ∧
    (m.applyOp now op).session.successfulItems + (m.applyOp now op).session.failedItems +
        (m.applyOp now op).session.skippedItems =
      m.session.successfulItems + m.session.failedItems + m.session.skippedItems + 1 := by
  cases op <;>
    simp [BatchResultManager.applyOp, BatchResultManager.saveSuccess,
      BatchResultManager.saveFailure, BatchResultManager.saveSkipped] <;>
    omega

/-- Counter bookkeeping of a fold of save calls over any starting manager. -/
theorem foldOps_session (ops : List BatchOp) :
    ∀ m : BatchResultManager,
      (ops.foldl (fun m op => m.applyOp 0 op) m).session.totalItems =
        m.session.totalItems ∧
      (ops.foldl (fun m op => m.applyOp 0 op) m).session.completedItems =
        m.session.completedItems + ops.length ∧
      (ops.foldl (fun m op => m.applyOp 0 op) m).session.successfulItems +
          (ops.foldl (fun m op => m.applyOp 0 op) m).session.failedItems +
          (ops.foldl (fun m op => m.applyOp 0 op) m).session.skippedItems =
        m.session.successfulItems + m.session.failedItems + m.session.skippedItems +
          ops.length := by
  induction ops with
  | nil => intro m; simp
  | cons op rest ih =>
    intro m
    have hstep := applyOp_session m 0 op
    have hrest := ih (m.applyOp 0 op)
    simp only [List.foldl_cons, List.length_cons]
    refine ⟨?_, ?_, ?_⟩ <;> omega

/-- **C8 (amended).** After any sequence of `saveSuccess` / `saveFailure` /
`saveSkipped` calls on a session initialized with `totalItems = total`, the
checkpoint satisfies `successfulItems + failedItems + skippedItems =
completedItems`, and `completedItems` equals the number of save calls — so
`completedItems ≤ totalItems` holds whenever at most `total` save calls are
made (the code itself never enforces that bound). -/
theorem c8_checkpoint_counts_consistent (total : ℕ) (ops : List BatchOp) :
    sessionConsistent (runOps total ops) ∧
    (runOps total ops).session.completedItems = ops.length ∧
    (ops.length ≤ total →
      (runOps total ops).session.completedItems ≤ (runOps total ops).session.totalItems) := by
  have h := foldOps_session ops (BatchResultManager.initState "session" 0 total)
  have hinit :
      (BatchResultManager.initState "session" 0 total).session.totalItems = total ∧
      (BatchResultManager.initState "session" 0 total).session.completedItems = 0 ∧
      (BatchResultManager.initState "session" 0 total).session.successfulItems = 0 ∧
      (BatchResultManager.initState "session" 0 total).session.failedItems = 0 ∧
      (BatchResultManager.initState "session" 0 total).session.skippedItems = 0 := by
    simp [BatchResultManager.initState]
  refine ⟨?_, ?_, fun hle => ?_⟩ <;>
    · simp only [sessionConsistent, runOps]
      omega

/-- **C8 (witness).** The amended statement at a concrete input: two total
items, one skipped call. -/
theorem c8_checkpoint_counts_consistent_witness :
    sessionConsistent (runOps 2 [.skip "a" "p" "r"]) ∧
    (runOps 2 [.skip "a" "p" "r"]).session.completedItems = 1 ∧
    (runOps 2 [.skip "a" "p" "r"]).session.completedItems ≤
      (runOps 2 [.skip "a" "p" "r"]).session.totalItems :=
  ⟨(c8_checkpoint_counts_consistent 2 [.skip "a" "p" "r"]).1,
   (c8_checkpoint_counts_consistent 2 [.skip "a" "p" "r"]).2.1,
   (c8_checkpoint_counts_consistent 2 [.skip "a" "p" "r"]).2.2 (by decide)⟩

/-- **C8 (counterexample to the claim as stated).** The claim quantifies over
*every* sequence of save calls, but nothing caps `completedItems` at
`totalItems`: two save calls on a session initialized with `totalItems = 1`
drive `completedItems` to 2 > 1. -/
theorem c8_counterexample :
    ¬ ((runOps 1 [.skip "a" "p" "r", .skip "a" "p" "r"]).session.completedItems ≤
       (runOps 1 [.skip "a" "p" "r", .skip "a" "p" "r"]).session.totalItems) := by
  decide

/-- `checkWarnings` only appends alerts; every other field is untouched. -/
theorem checkWarnings_fields (bm : BudgetManager) (c : ℚ) (now : ℤ) :
    (bm.checkWarnings c now).limits = bm.limits ∧
    (bm.checkWarnings c now).records = bm.records ∧
    (bm.checkWarnings c now).startOfDay = bm.startOfDay := by
  simp [BudgetManager.checkWarnings]

/-- With a single truthy daily ceiling `L` and no other configured limit,
`canAfford` denies exactly when the daily spend plus the estimated cost
strictly exceeds `L`, and it never touches the records. -/
theorem canAfford_single_daily (bm : BudgetManager) (p : AIProvider) (c : ℚ)
    (now : ℤ) (L : ℚ)
    (hd : bm.limits.dailyLimit = some L) (hL : L ≠ 0)
    (hpr : bm.limits.perRequestLimit = none)
    (hw : bm.limits.weeklyLimit = none)
    (hm : bm.limits.monthlyLimit = none)
    (hp : bm.limits.providerLimits p = none) :
    ((bm.canAfford p c now).1 = false ↔ L < bm.dailySpent now + c) ∧
    ((bm.canAfford p c now).1 = true ↔ bm.dailySpent now + c ≤ L) ∧
    (bm.canAfford p c now).2.records = bm.records := by
  unfold BudgetManager.canAfford
  rw [hd, hpr, hw, hm, hp]
  by_cases h : L < bm.dailySpent now + c <;>
    simp [jsTruthy, hL, h, not_lt, BudgetManager.addAlert, BudgetManager.checkWarnings,
      le_of_not_lt]

/-- **C2.** With a single active daily ceiling of exactly 10 dollars and
requests of exactly 0.30 dollars whose cost is recorded after each approval,
`canAfford` approves the first 33 requests and denies the 34th
(9.90 ≤ 10 < 10.20); and in general, under a single truthy daily ceiling
`L`, `canAfford` returns `false` exactly when the current daily window spend
plus the estimated cost strictly exceeds `L`. -/
theorem c2_budget_ceiling (bm : BudgetManager) (p : AIProvider) (c : ℚ)
    (now : ℤ) (L : ℚ)
    (hd : bm.limits.dailyLimit = some L) (hL : L ≠ 0)
    (hpr : bm.limits.perRequestLimit = none)
    (hw : bm.limits.weeklyLimit = none)
    (hm : bm.limits.monthlyLimit = none)
    (hp : bm.limits.providerLimits p = none) :
    ((c2Run 34).1 = List.replicate 33 true ++ [false]) ∧
    ((bm.canAfford p c now).1 = false ↔ L < bm.dailySpent now + c) :=
  ⟨by with_unfolding_all rfl,
   (canAfford_single_daily bm p c now L hd hL hpr hw hm hp).1⟩

/-- **C2 (witness).** The theorem at a concrete input: the exhausted
10-dollar daily budget and a 0.30-dollar request. -/
theorem c2_budget_ceiling_witness :
    ((c2Run 34).1 = List.replicate 33 true ++ [false]) ∧
    ((exhaustedBudget.canAfford AIProvider.gemini (mkRat 3 10) 0).1 = false ↔
      (10 : ℚ) < exhaustedBudget.dailySpent 0 + mkRat 3 10) :=
  c2_budget_ceiling exhaustedBudget AIProvider.gemini (mkRat 3 10) 0 10 rfl
    (by norm_num) rfl rfl rfl rfl

/-- With no limit of any scope configured, `canAfford` returns `true` and
leaves the manager (in particular its alert list) unchanged. -/
theorem canAfford_noneSet (bm : BudgetManager) (p : AIProvider) (c : ℚ) (now : ℤ)
    (h : bm.limits.noneSet) : bm.canAfford p c now = (true, bm) := by
  obtain ⟨h1, h2, h3, h4, h5⟩ := h
  unfold BudgetManager.canAfford
  rw [h4, h1, h2, h3, h5 p]
  simp [jsTruthy, BudgetManager.checkWarnings, periodWarning, h1, h2, h3]

/-- **C10.** If no budget limit of any scope is configured, `canAfford`
returns `true` for every provider and estimated cost and appends no alert
(the manager is returned unchanged); contrapositively, a `false` return
requires some configured limit. -/
theorem c10_no_limits_never_denies :
    (∀ (bm : BudgetManager) (p : AIProvider) (c : ℚ) (now : ℤ),
      bm.limits.noneSet → bm.canAfford p c now = (true, bm)) ∧
    (∀ (bm : BudgetManager) (p : AIProvider) (c : ℚ) (now : ℤ),
      (bm.canAfford p c now).1 = false → ¬ bm.limits.noneSet) := by
  refine ⟨fun bm p c now h => canAfford_noneSet bm p c now h, ?_⟩
  intro bm p c now hfalse hnone
  rw [canAfford_noneSet bm p c now hnone] at hfalse
  simp at hfalse

/-- **C10 (witness).** The theorem at a concrete input: a manager with every
limit unset (and a large recorded spend) still approves a 5-dollar request
and appends nothing. -/
theorem c10_no_limits_never_denies_witness :
    emptyBudget.canAfford AIProvider.claude 5 0 = (true, emptyBudget) :=
  c10_no_limits_never_denies.1 emptyBudget AIProvider.claude 5 0
    ⟨rfl, rfl, rfl, rfl, fun _ => rfl⟩

/-- `execute` in closed or half-open state runs the wrapped function. -/
theorem execute_not_opened {α : Type} (cb : CircuitBreaker) (t : ℤ)
    (fn : Except RError α) (h : cb.state ≠ .opened) :
    cb.execute t fn = cb.proceed t fn := by
  unfold CircuitBreaker.execute
  simp [h]

/-- `execute` in open state before the scheduled retry time rejects without
invoking the function and leaves the breaker unchanged. -/
theorem execute_opened_wait {α : Type} (cb : CircuitBreaker) (t : ℤ)
    (fn : Except RError α) (h : cb.state = .opened)
    (hs : cb.shouldAttemptReset t = false) :
    cb.execute t fn =
      { invoked := false, result := .error (breakerOpenError cb.nextRetryTime),
        cb := cb } := by
  unfold CircuitBreaker.execute
  simp [h, hs]

/-- `execute` in open state once the retry time has passed probes in
half-open state. -/
theorem execute_opened_probe {α : Type} (cb : CircuitBreaker) (t : ℤ)
    (fn : Except RError α) (h : cb.state = .opened)
    (hs : cb.shouldAttemptReset t = true) :
    cb.execute t fn = CircuitBreaker.proceed { cb with state := .halfOpen } t fn := by
  unfold CircuitBreaker.execute
  simp [h, hs]

/-- `proceed` always invokes the wrapped function. -/
theorem proceed_invoked {α : Type} (cb : CircuitBreaker) (t : ℤ) (fn : Except RError α) :
    (cb.proceed t fn).invoked = true := by
  cases fn <;> rfl

/-- Fewer than `failureThreshold` consecutive failures leave the breaker
closed, with the failure counter tracking the number of failures. -/
theorem failedCalls_closed (opts : CircuitBreakerOptions) (times : ℕ → ℤ) :
    ∀ k, k < opts.failureThreshold →
      (failedCalls (initBreaker opts) times k).state = .closed ∧
      (failedCalls (initBreaker opts) times k).failures = k ∧
      (failedCalls (initBreaker opts) times k).successes = 0 ∧
      (failedCalls (initBreaker opts) times k).options = opts ∧
      (failedCalls (initBreaker opts) times k).nextRetryTime = none := by
  intro k
  induction k with
  | zero => intro _; exact ⟨rfl, rfl, rfl, rfl, rfl⟩
  | succ n ih =>
    intro h
    obtain ⟨hs, hf, hsu, ho, hn⟩ := ih (by omega)
    simp only [failedCalls]
    rw [execute_not_opened _ _ _ (by rw [hs]; intro hc; cases hc)]
    unfold CircuitBreaker.proceed CircuitBreaker.onFailure
    simp only [hf, ho]
    have : ¬ opts.failureThreshold ≤ n + 1 := by omega
    simp [this, hs, hsu, ho, hn]

/-- Exactly `failureThreshold` consecutive failures trip the breaker open and
schedule the retry time from the last failure's clock. -/
theorem failedCalls_trips (opts : CircuitBreakerOptions) (times : ℕ → ℤ)
    (hF : 1 ≤ opts.failureThreshold) :
    (failedCalls (initBreaker opts) times opts.failureThreshold).state = .opened ∧
    (failedCalls (initBreaker opts) times opts.failureThreshold).failures =
      opts.failureThreshold ∧
    (failedCalls (initBreaker opts) times opts.failureThreshold).successes = 0 ∧
    (failedCalls (initBreaker opts) times opts.failureThreshold).options = opts ∧
    (failedCalls (initBreaker opts) times opts.failureThreshold).nextRetryTime =
      some (times (opts.failureThreshold - 1) + opts.resetTimeoutMs) := by
  obtain ⟨n, hn⟩ : ∃ n, opts.failureThreshold = n + 1 :=
    ⟨opts.failureThreshold - 1, by omega⟩
  obtain ⟨hs, hf, hsu, ho, hnr⟩ := failedCalls_closed opts times n (by omega)
  rw [hn]
  simp only [failedCalls]
  rw [execute_not_opened _ _ _ (by rw [hs]; intro hc; cases hc)]
  unfold CircuitBreaker.proceed CircuitBreaker.onFailure CircuitBreaker.trip
  simp only [hf, ho]
  simp [hs, hsu, ho, hn]

/-- From a tripped breaker whose retry time has passed at the first call,
`k` consecutive successful calls stay half-open with `successes = k` while
`k < successThreshold`, and close the breaker at `k = successThreshold`. -/
theorem succCalls_halfOpen_closed (cb : CircuitBreaker) (times : ℕ → ℤ) (t : ℤ)
    (hstate : cb.state = .opened) (hnrt : cb.nextRetryTime = some t)
    (hprobe : t ≤ times 0) (hsucc : cb.successes = 0) :
    ∀ k, 1 ≤ k → k ≤ cb.options.successThreshold →
      (k < cb.options.successThreshold →
        (succCalls cb times k).state = .halfOpen ∧
        (succCalls cb times k).successes = k ∧
        (succCalls cb times k).failures = cb.failures ∧
        (succCalls cb times k).options = cb.options) ∧
      (k = cb.options.successThreshold → (succCalls cb times k).state = .closed) := by
  intro k
  induction k with
  | zero => intro h; omega
  | succ n ih =>
    intro _ hk
    rcases Nat.eq_zero_or_pos n with hn | hn
    · subst hn
      simp only [succCalls]
      rw [execute_opened_probe _ _ _ hstate
        (by unfold CircuitBreaker.shouldAttemptReset; rw [hnrt]; simpa using hprobe)]
      unfold CircuitBreaker.proceed CircuitBreaker.onSuccess CircuitBreaker.reset
      simp only [hsucc]
      by_cases hth : cb.options.successThreshold ≤ 0 + 1
      · simp [hth]
        try omega
      · simp [hth]
        try omega
    · obtain ⟨ihlt, _⟩ := ih (by omega) (by omega)
      obtain ⟨hs, hsu, hf, ho⟩ := ihlt (by omega)
      simp only [succCalls]
      rw [execute_not_opened _ _ _ (by rw [hs]; intro hc; cases hc)]
      unfold CircuitBreaker.proceed CircuitBreaker.onSuccess CircuitBreaker.reset
      simp only [hs, hsu, ho]
      by_cases hth : cb.options.successThreshold ≤ n + 1
      · simp [hth, hs]
        try omega
      · simp [hth, hs, hf, ho]
        try omega

/-- A failure in half-open state (with enough accumulated failures, as always
holds after a trip) sends the breaker straight back to open. -/
theorem execute_halfOpen_failure (cb : CircuitBreaker) (t : ℤ) (e : RError)
    (hstate : cb.state = .halfOpen)
    (hthr : cb.options.failureThreshold ≤ cb.failures + 1) :
    ((cb.execute t (.error e : Except RError Unit)).cb).state = .opened := by
  rw [execute_not_opened _ _ _ (by rw [hstate]; intro hc; cases hc)]
  unfold CircuitBreaker.proceed CircuitBreaker.onFailure CircuitBreaker.trip
  simp [hthr]

/-- **C3.** With failure threshold `F` and success threshold `H`: from the
initial closed state, `F` consecutive failed executions open the breaker; a
further `execute` before the reset timeout is rejected with the breaker-open
error without invoking the wrapped function; once the reset timeout has
elapsed, `execute` probes (invokes the function) in half-open state; `H`
consecutive successes from the probe return the breaker to closed; and any
failure while half-open (the probe itself, or any later probe call before
`H` successes accumulate) returns it to open. -/
theorem c3_circuit_breaker_lifecycle (opts : CircuitBreakerOptions)
    (times : ℕ → ℤ) (now probeTime : ℤ) (e : RError)
    (hF : 1 ≤ opts.failureThreshold) (hH : 1 ≤ opts.successThreshold)
    (hreject : now < times (opts.failureThreshold - 1) + opts.resetTimeoutMs)
    (hprobe : times (opts.failureThreshold - 1) + opts.resetTimeoutMs ≤ probeTime) :
    (failedCalls (initBreaker opts) times opts.failureThreshold).state = .opened ∧
    (∀ fn : Except RError Unit,
      (failedCalls (initBreaker opts) times opts.failureThreshold).execute now fn =
        { invoked := false,
          result := .error (breakerOpenError
            (failedCalls (initBreaker opts) times opts.failureThreshold).nextRetryTime),
          cb := failedCalls (initBreaker opts) times opts.failureThreshold }) ∧
    (∀ fn : Except RError Unit,
      ((failedCalls (initBreaker opts) times opts.failureThreshold).execute
        probeTime fn).invoked = true) ∧
    (succCalls (failedCalls (initBreaker opts) times opts.failureThreshold)
      (fun j => probeTime + (j : ℤ)) opts.successThreshold).state = .closed ∧
    (((failedCalls (initBreaker opts) times opts.failureThreshold).execute probeTime
        (.error e : Except RError Unit)).cb).state = .opened ∧
    (∀ (k : ℕ) (tf : ℤ), 1 ≤ k → k < opts.successThreshold →
      (((succCalls (failedCalls (initBreaker opts) times opts.failureThreshold)
          (fun j => probeTime + (j : ℤ)) k).execute tf
          (.error e : Except RError Unit)).cb).state = .opened) := by
  obtain ⟨hs, hf, hsu, ho, hnr⟩ := failedCalls_trips opts times hF
  have hwait : (failedCalls (initBreaker opts) times opts.failureThreshold).shouldAttemptReset
      now = false := by
    unfold CircuitBreaker.shouldAttemptReset
    rw [hnr]
    simpa using by omega
  have hready : (failedCalls (initBreaker opts) times opts.failureThreshold).shouldAttemptReset
      probeTime = true := by
    unfold CircuitBreaker.shouldAttemptReset
    rw [hnr]
    simpa using hprobe
  refine ⟨hs, ?_, ?_, ?_, ?_, ?_⟩
  · intro fn
    exact execute_opened_wait _ _ _ hs hwait
  · intro fn
    rw [execute_opened_probe _ _ _ hs hready]
    exact proceed_invoked _ _ _
  · have h := succCalls_halfOpen_closed
      (failedCalls (initBreaker opts) times opts.failureThreshold)
      (fun j => probeTime + (j : ℤ))
      (times (opts.failureThreshold - 1) + opts.resetTimeoutMs)
      hs hnr (by simpa using hprobe) hsu opts.successThreshold (by omega) (by rw [ho])
    exact (h.2) (by rw [ho])
  · rw [execute_opened_probe _ _ _ hs hready]
    unfold CircuitBreaker.proceed CircuitBreaker.onFailure CircuitBreaker.trip
    simp only [hf, ho]
    simp [show opts.failureThreshold ≤ opts.failureThreshold + 1 by omega]
  · intro k tf hk1 hk2
    have h := succCalls_halfOpen_closed
      (failedCalls (initBreaker opts) times opts.failureThreshold)
      (fun j => probeTime + (j : ℤ))
      (times (opts.failureThreshold - 1) + opts.resetTimeoutMs)
      hs hnr (by simpa using hprobe) hsu k hk1 (by rw [ho]; omega)
    obtain ⟨hst, hsuc, hfail, hopt⟩ := h.1 (by rw [ho]; omega)
    exact execute_halfOpen_failure _ tf e hst
      (by rw [hopt, ho, hfail, hf]; omega)

/-- **C3 (witness).** The lifecycle at the default options (F = 5, H = 2)
with failures at times 0..4, a rejected call at t = 60003 and the probe at
t = 60004. -/
theorem c3_circuit_breaker_lifecycle_witness :
    (failedCalls (initBreaker {}) (fun i => (i : ℤ)) 5).state = .opened ∧
    (∀ fn : Except RError Unit,
      (failedCalls (initBreaker {}) (fun i => (i : ℤ)) 5).execute 60003 fn =
        { invoked := false,
          result := .error (breakerOpenError
            (failedCalls (initBreaker {}) (fun i => (i : ℤ)) 5).nextRetryTime),
          cb := failedCalls (initBreaker {}) (fun i => (i : ℤ)) 5 }) ∧
    (∀ fn : Except RError Unit,
      ((failedCalls (initBreaker {}) (fun i => (i : ℤ)) 5).execute 60004 fn).invoked = true) ∧
    (succCalls (failedCalls (initBreaker {}) (fun i => (i : ℤ)) 5)
      (fun j => 60004 + (j : ℤ)) 2).state = .closed ∧
    (((failedCalls (initBreaker {}) (fun i => (i : ℤ)) 5).execute 60004
        (.error genericError : Except RError Unit)).cb).state = .opened ∧
    (∀ (k : ℕ) (tf : ℤ), 1 ≤ k → k < 2 →
      (((succCalls (failedCalls (initBreaker {}) (fun i => (i : ℤ)) 5)
          (fun j => 60004 + (j : ℤ)) k).execute tf
          (.error genericError : Except RError Unit)).cb).state = .opened) :=
  c3_circuit_breaker_lifecycle {} (fun i => (i : ℤ)) 60003 60004 genericError
    (by decide) (by decide) (by decide) (by decide)

/-- The retry loop, when every attempt before `maxAttempts` fails with a
retryable error: if the final attempt succeeds, that value is returned after
exactly `fuel` invocations; if it fails retryably, that error is re-raised
after exactly `fuel` invocations and the final log entry reports the attempt
count. -/
theorem retryGo_pure_spec {α : Type} (opts : RetryOptions) (outcomes : ℕ → Except RError α) :
    ∀ (fuel attempt : ℕ) (lastE : Option RError),
      attempt + fuel = opts.maxAttempts + 1 → 1 ≤ attempt → attempt ≤ opts.maxAttempts →
      (∀ i, attempt ≤ i → i < opts.maxAttempts →
        ∃ e, outcomes i = .error e ∧ isRetryableError e opts.retryableErrors = true) →
      (∀ v, outcomes opts.maxAttempts = .ok v →
        (retryGo opts (fun i _ => (outcomes i, ())) attempt fuel () lastE).1.result = .ok v ∧
        (retryGo opts (fun i _ => (outcomes i, ())) attempt fuel () lastE).1.invocations = fuel) ∧
      (∀ e, outcomes opts.maxAttempts = .error e →
        isRetryableError e opts.retryableErrors = true →
        (retryGo opts (fun i _ => (outcomes i, ())) attempt fuel () lastE).1.result = .error e ∧
        (retryGo opts (fun i _ => (outcomes i, ())) attempt fuel () lastE).1.invocations = fuel ∧
        (retryGo opts (fun i _ => (outcomes i, ())) attempt fuel () lastE).1.logs =
          (List.range' attempt (opts.maxAttempts - attempt)).map
            (fun i => .retrying i (calculateDelay i opts)) ++
          [.requestFailed opts.maxAttempts true]) := by
  intro fuel
  induction fuel with
  | zero =>
    intro attempt lastE hsum h1 hle hfail
    omega
  | succ f ih =>
    intro attempt lastE hsum h1 hle hfail
    rcases Nat.lt_or_ge attempt opts.maxAttempts with hlt | hge
    · -- attempt < maxAttempts: this attempt fails retryably and we recurse
      obtain ⟨ea, hea, hra⟩ := hfail attempt (le_refl _) hlt
      have hcond : (!isRetryableError ea opts.retryableErrors ||
          decide (opts.maxAttempts ≤ attempt)) = false := by
        simp [hra]
        omega
      have ihspec := ih (attempt + 1) (some ea) (by omega) (by omega) (by omega)
        (fun i hi1 hi2 => hfail i (by omega) hi2)
      constructor
      · intro v hok
        obtain ⟨hres, hinv⟩ := ihspec.1 v hok
        simp only [retryGo, hea]
        simp only [decide_eq_true_eq] at hcond
        simp [hra, show ¬ opts.maxAttempts ≤ attempt by omega, hres, hinv]
        omega
      · intro e herr hretry
        obtain ⟨hres, hinv, hlogs⟩ := ihspec.2 e herr hretry
        simp only [retryGo, hea]
        simp [hra, show ¬ opts.maxAttempts ≤ attempt by omega, hres, hinv, hlogs]
        have hm : opts.maxAttempts - attempt = (opts.maxAttempts - (attempt + 1)) + 1 := by
          omega
        constructor
        · omega
        · rw [hm, List.range'_succ]
          simp
    · -- attempt = maxAttempts: the final attempt
      have heq : attempt = opts.maxAttempts := by omega
      have hf0 : f = 0 := by omega
      constructor
      · intro v hok
        simp only [retryGo]
        rw [heq, hok]
        simp
        omega
      · intro e herr hretry
        simp only [retryGo]
        rw [heq, herr]
        simp [hretry, heq, hf0]

/-- **C5.** A function failing with transient (retryable) errors on its first
`maxAttempts - 1` invocations and succeeding on invocation `maxAttempts`
makes `RetryLogic.execute` return that success with `attempts = maxAttempts`
invocations reported; a function failing transiently on all `maxAttempts`
invocations makes it re-raise the last error, with the attempt count
(`maxAttempts`) reported in the final failure log entry. -/
theorem c5_retry_attempt_accounting {α : Type} (opts : RetryOptions)
    (outcomes : ℕ → Except RError α)
    (hA : 1 ≤ opts.maxAttempts)
    (hfail : ∀ i, 1 ≤ i → i < opts.maxAttempts →
      ∃ e, outcomes i = .error e ∧ isRetryableError e opts.retryableErrors = true) :
    (∀ v, outcomes opts.maxAttempts = .ok v →
      (RetryLogic.execute opts outcomes).result = .ok v ∧
      (RetryLogic.execute opts outcomes).invocations = opts.maxAttempts) ∧
    (∀ e, outcomes opts.maxAttempts = .error e →
      isRetryableError e opts.retryableErrors = true →
      (RetryLogic.execute opts outcomes).result = .error e ∧
      (RetryLogic.execute opts outcomes).invocations = opts.maxAttempts ∧
      (RetryLogic.execute opts outcomes).logs.getLast? =
        some (.requestFailed opts.maxAttempts true)) := by
  have h := retryGo_pure_spec opts outcomes opts.maxAttempts 1 none (by omega) (by omega)
    hA hfail
  unfold RetryLogic.execute
  constructor
  · intro v hok
    exact h.1 v hok
  · intro e herr hr
    obtain ⟨hres, hinv, hlogs⟩ := h.2 e herr hr
    refine ⟨hres, hinv, ?_⟩
    rw [hlogs]
    exact List.getLast?_concat _

/-- **C5 (witness).** The success half at `maxAttempts = 3` with two
rate-limit failures then a success. -/
theorem c5_witness :
    (RetryLogic.execute {}
      (fun i => if i < 3 then .error { message := "RATE_LIMIT" } else .ok 42)).result =
        .ok 42 ∧
    (RetryLogic.execute {}
      (fun i => if i < 3 then .error { message := "RATE_LIMIT" } else .ok 42)).invocations = 3 :=
  (c5_retry_attempt_accounting {}
    (fun i => if i < 3 then .error { message := "RATE_LIMIT" } else .ok 42)
    (by decide)
    (fun i h1 h2 => ⟨{ message := "RATE_LIMIT" }, by interval_cases i <;> rfl,
      by with_unfolding_all rfl⟩)).1 42 rfl

/-- **C6.** A function whose first invocation fails with an error not
classified as retryable is invoked exactly once: the error propagates
immediately, with no backoff sleep, regardless of `maxAttempts`. -/
theorem c6_nonretryable_single_attempt {α : Type} (opts : RetryOptions)
    (outcomes : ℕ → Except RError α) (e : RError)
    (h1 : outcomes 1 = .error e)
    (hnr : isRetryableError e opts.retryableErrors = false)
    (hA : 1 ≤ opts.maxAttempts) :
    (RetryLogic.execute opts outcomes).result = .error e ∧
    (RetryLogic.execute opts outcomes).invocations = 1 ∧
    (RetryLogic.execute opts outcomes).sleeps = [] := by
  obtain ⟨f, hf⟩ : ∃ f, opts.maxAttempts = f + 1 := ⟨opts.maxAttempts - 1, by omega⟩
  unfold RetryLogic.execute
  rw [hf]
  simp only [retryGo, h1]
  simp [hnr]

/-- **C6 (witness).** The theorem at a concrete non-retryable (validation)
error under the default options. -/
theorem c6_witness :
    (RetryLogic.execute {}
      (fun _ => .error { message := "Invalid API key" } : ℕ → Except RError Nat)).result =
        .error { message := "Invalid API key" } ∧
    (RetryLogic.execute {}
      (fun _ => .error { message := "Invalid API key" } : ℕ → Except RError Nat)).invocations = 1 ∧
    (RetryLogic.execute {}
      (fun _ => .error { message := "Invalid API key" } : ℕ → Except RError Nat)).sleeps = [] :=
  c6_nonretryable_single_attempt {} _ { message := "Invalid API key" } rfl
    (by with_unfolding_all rfl) (by decide)

/-- While the first `k` attempts fail retryably, the recorded backoff sleeps
start with `calculateDelay` of each failed attempt, in order. -/
theorem retryGo_sleeps_prefix {α : Type} (opts : RetryOptions)
    (outcomes : ℕ → Except RError α) :
    ∀ (k attempt fuel : ℕ) (lastE : Option RError),
      1 ≤ attempt → attempt + fuel = opts.maxAttempts + 1 →
      attempt + k ≤ opts.maxAttempts →
      (∀ i, attempt ≤ i → i < attempt + k →
        ∃ e, outcomes i = .error e ∧ isRetryableError e opts.retryableErrors = true) →
      ∃ rest, (retryGo opts (fun i _ => (outcomes i, ())) attempt fuel () lastE).1.sleeps =
        (List.range' attempt k).map (fun i => calculateDelay i opts) ++ rest := by
  intro k
  induction k with
  | zero =>
    intro attempt fuel lastE _ _ _ _
    exact ⟨(retryGo opts (fun i _ => (outcomes i, ())) attempt fuel () lastE).1.sleeps,
      by simp⟩
  | succ n ih =>
    intro attempt fuel lastE h1 hsum hk hfail
    obtain ⟨ea, hea, hra⟩ := hfail attempt (le_refl _) (by omega)
    obtain ⟨f, hf⟩ : ∃ f, fuel = f + 1 := ⟨fuel - 1, by omega⟩
    subst hf
    simp only [retryGo, hea]
    have hnle : ¬ opts.maxAttempts ≤ attempt := by omega
    obtain ⟨rest, hrest⟩ := ih (attempt + 1) f (some ea) (by omega) (by omega) (by omega)
      (fun i hi1 hi2 => hfail i (by omega) (by omega))
    refine ⟨rest, ?_⟩
    simp [hra, hnle, hrest, List.range'_succ]

/-- **C7.** For every attempt number `n ≥ 1` (with `n` below `maxAttempts`,
so that a retry follows), the backoff delay slept before the retry following
failed attempt `n` equals
`min(maxDelayMs, initialDelayMs * backoffMultiplier ^ (n - 1))`: the sleeps
of the run list exactly these values for attempts `1..n`. -/
theorem c7_backoff_delays {α : Type} (opts : RetryOptions)
    (outcomes : ℕ → Except RError α) (n : ℕ)
    (_hn : 1 ≤ n) (hlt : n < opts.maxAttempts)
    (hfail : ∀ i, 1 ≤ i → i ≤ n →
      ∃ e, outcomes i = .error e ∧ isRetryableError e opts.retryableErrors = true) :
    ∃ rest, (RetryLogic.execute opts outcomes).sleeps =
      (List.range' 1 n).map
        (fun i => min opts.maxDelayMs
          (opts.initialDelayMs * opts.backoffMultiplier ^ (i - 1))) ++ rest := by
  obtain ⟨rest, hrest⟩ := retryGo_sleeps_prefix opts outcomes n 1 opts.maxAttempts none
    (by omega) (by omega) (by omega) (fun i hi1 hi2 => hfail i hi1 (by omega))
  refine ⟨rest, ?_⟩
  unfold RetryLogic.execute
  rw [hrest]
  have hcd : ∀ i : ℕ, calculateDelay i opts =
      min opts.maxDelayMs (opts.initialDelayMs * opts.backoffMultiplier ^ (i - 1)) := by
    intro i
    unfold calculateDelay
    rw [min_comm]
  simp [hcd]

/-- **C7 (witness).** The delay list at `n = 2` under the default options:
1000ms then 2000ms, both below the 30000ms cap. -/
theorem c7_witness :
    ∃ rest, (RetryLogic.execute {}
      (fun _ => .error { message := "TIMEOUT" } : ℕ → Except RError Nat)).sleeps =
      (List.range' 1 2).map
        (fun i => min (30000 : ℚ) (1000 * 2 ^ (i - 1))) ++ rest :=
  c7_backoff_delays {} (fun _ => .error { message := "TIMEOUT" }) 2 (by decide) (by decide)
    (fun i h1 h2 => ⟨{ message := "TIMEOUT" }, rfl, by with_unfolding_all rfl⟩)


/-- Decimal digit characters are never a newline. -/
theorem digitChar_ne_nl (d : ℕ) : digitChar d ≠ '\n' := by
  unfold digitChar
  split <;> decide

/-- Hexadecimal digit characters are never a newline. -/
theorem hexChar_ne_nl (d : ℕ) : hexChar d ≠ '\n' := by
  unfold hexChar
  split <;> first | decide | apply digitChar_ne_nl

/-- Rendered decimal digits never contain a newline. -/
theorem natDigitsAux_nl : ∀ (fuel n : ℕ), '\n' ∉ natDigitsAux fuel n := by
  intro fuel
  induction fuel with
  | zero => intro n; simp [natDigitsAux]
  | succ f ih =>
    intro n
    simp only [natDigitsAux]
    split
    · simp
      exact fun h => absurd h.symm (digitChar_ne_nl n)
    · simp
      exact ⟨fun h => absurd h (ih (n / 10)), fun h => absurd h.symm (digitChar_ne_nl (n % 10))⟩

/-- `natStr` never contains a newline. -/
theorem lineSafe_natStr (n : ℕ) : lineSafe (natStr n) :=
  natDigitsAux_nl (n + 1) n

/-- Concatenation preserves newline-freedom. -/
theorem lineSafe_append (a b : String) (ha : lineSafe a) (hb : lineSafe b) :
    lineSafe (a ++ b) := by
  unfold lineSafe at *
  rw [String.data_append]
  simp [ha, hb]

/-- `intStr` never contains a newline. -/
theorem lineSafe_intStr (i : ℤ) : lineSafe (intStr i) := by
  unfold intStr
  split
  · exact lineSafe_append _ _ (by unfold lineSafe; decide) (lineSafe_natStr _)
  · exact lineSafe_natStr _

/-- `ratStr` never contains a newline. -/
theorem lineSafe_ratStr (q : ℚ) : lineSafe (ratStr q) := by
  unfold ratStr
  split
  · exact lineSafe_intStr _
  · exact lineSafe_append _ _
      (lineSafe_append _ _ (lineSafe_intStr _) (by unfold lineSafe; decide))
      (lineSafe_natStr _)

/-- The `\\u00XX` escape never contains a newline. -/
theorem nl_notin_hexList (a b : ℕ) : '\n' ∉ ['\\', 'u', '0', '0', hexChar a, hexChar b] := by
  intro h
  rcases List.mem_cons.mp h with h | h
  · exact absurd h (by decide)
  rcases List.mem_cons.mp h with h | h
  · exact absurd h (by decide)
  rcases List.mem_cons.mp h with h | h
  · exact absurd h (by decide)
  rcases List.mem_cons.mp h with h | h
  · exact absurd h (by decide)
  rcases List.mem_cons.mp h with h | h
  · exact absurd h.symm (hexChar_ne_nl a)
  have h := List.mem_singleton.mp h
  exact absurd h.symm (hexChar_ne_nl b)

/-- `JSON.stringify` escaping maps every character (a raw newline
included) to newline-free output. -/
theorem escapeJsonChar_nl (c : Char) : '\n' ∉ escapeJsonChar c := by
  unfold escapeJsonChar
  split
  · decide
  split
  · decide
  split
  · decide
  split
  · decide
  split
  · decide
  split
  · decide
  split
  · decide
  split
  · exact nl_notin_hexList _ _
  rename_i h1 h2 h3 h4 h5 h6 h7 h8
  simp
  exact fun hh => h3 hh.symm

/-- Escaped string bodies are newline-free. -/
theorem escapeChars_nl : ∀ l : List Char, '\n' ∉ escapeChars l := by
  intro l
  induction l with
  | nil => simp [escapeChars]
  | cons c cs ih =>
    simp only [escapeChars]
    intro h
    rcases List.mem_append.mp h with h | h
    · exact escapeJsonChar_nl c h
    · exact ih h

/-- A rendered JSON string literal is newline-free, whatever its content. -/
theorem lineSafe_jsonQuote (s : String) : lineSafe (jsonQuote s) := by
  unfold jsonQuote
  refine lineSafe_append _ _ (lineSafe_append _ _ (by unfold lineSafe; decide) ?_)
    (by unfold lineSafe; decide)
  exact escapeChars_nl s.data

/-- Comma-joining newline-free fragments is newline-free. -/
theorem lineSafe_joinComma : ∀ l : List String, (∀ s ∈ l, lineSafe s) →
    lineSafe (joinComma l) := by
  intro l
  induction l with
  | nil => intro _; unfold joinComma lineSafe; simp
  | cons s rest ih =>
    intro h
    match rest with
    | [] => exact h s (by simp)
    | t :: ts =>
      show lineSafe (s ++ "," ++ joinComma (t :: ts))
      refine lineSafe_append _ _ (lineSafe_append _ _ (h s (by simp))
        (by unfold lineSafe; decide)) ?_
      exact ih (fun x hx => h x (by simp [hx]))

/-- A rendered JSON object with newline-free values is newline-free. -/
theorem lineSafe_jsonObject (fields : List (String × String))
    (h : ∀ kv ∈ fields, lineSafe kv.2) : lineSafe (jsonObject fields) := by
  unfold jsonObject
  refine lineSafe_append _ _ (lineSafe_append _ _ (by unfold lineSafe; decide) ?_)
    (by unfold lineSafe; decide)
  refine lineSafe_joinComma _ ?_
  intro s hs
  rcases List.mem_map.mp hs with ⟨kv, hkv, rfl⟩
  exact lineSafe_append _ _ (lineSafe_append _ _ (lineSafe_jsonQuote _)
    (by unfold lineSafe; decide)) (h kv hkv)

/-- A rendered JSON array of newline-free elements is newline-free. -/
theorem lineSafe_jsonArray (elems : List String)
    (h : ∀ s ∈ elems, lineSafe s) : lineSafe (jsonArray elems) := by
  unfold jsonArray
  exact lineSafe_append _ _ (lineSafe_append _ _ (by unfold lineSafe; decide)
    (lineSafe_joinComma _ h)) (by unfold lineSafe; decide)

/-- A rendered date is newline-free. -/
theorem lineSafe_jsonDateStr (t : ℤ) : lineSafe (jsonDateStr t) :=
  lineSafe_jsonQuote _

/-- A serialized `CategoryResult` is newline-free. -/
theorem lineSafe_stringifyCategory (c : CategoryResult) :
    lineSafe (stringifyCategory c) := by
  unfold stringifyCategory
  refine lineSafe_jsonObject _ ?_
  intro kv hkv
  unfold categoryFields at hkv
  rcases hr : c.reasoning with _ | r
  · rw [hr] at hkv
    simp at hkv
    rcases hkv with rfl | rfl | rfl
    · exact lineSafe_jsonQuote _
    · exact lineSafe_ratStr _
    · exact lineSafe_jsonQuote _
  · rw [hr] at hkv
    simp at hkv
    rcases hkv with rfl | rfl | rfl | rfl
    · exact lineSafe_jsonQuote _
    · exact lineSafe_ratStr _
    · exact lineSafe_jsonQuote _
    · exact lineSafe_jsonQuote _

/-- A serialized `ClassificationResult` is newline-free. -/
theorem lineSafe_stringifyClassificationResult (r : ClassificationResult) :
    lineSafe (stringifyClassificationResult r) := by
  unfold stringifyClassificationResult
  refine lineSafe_jsonObject _ ?_
  intro kv hkv
  rcases hm : r.providerMetadata with _ | md
  · rw [hm] at hkv
    simp at hkv
    rcases hkv with rfl | rfl | rfl | rfl | rfl | rfl | rfl | rfl
    · exact lineSafe_jsonQuote _
    · exact lineSafe_jsonQuote _
    · refine lineSafe_jsonArray _ ?_
      intro s hs
      rcases List.mem_map.mp hs with ⟨cat, _, rfl⟩
      exact lineSafe_stringifyCategory _
    · exact lineSafe_stringifyCategory _
    · refine lineSafe_jsonObject _ ?_
      intro kv hkv
      simp at hkv
      rcases hkv with rfl | rfl | rfl
      · exact lineSafe_natStr _
      · exact lineSafe_natStr _
      · exact lineSafe_natStr _
    · exact lineSafe_ratStr _
    · exact lineSafe_ratStr _
    · exact lineSafe_jsonDateStr _
  · rw [hm] at hkv
    simp at hkv
    rcases hkv with rfl | rfl | rfl | rfl | rfl | rfl | rfl | rfl | rfl
    · exact lineSafe_jsonQuote _
    · exact lineSafe_jsonQuote _
    · refine lineSafe_jsonArray _ ?_
      intro s hs
      rcases List.mem_map.mp hs with ⟨cat, _, rfl⟩
      exact lineSafe_stringifyCategory _
    · exact lineSafe_stringifyCategory _
    · refine lineSafe_jsonObject _ ?_
      intro kv hkv
      simp at hkv
      rcases hkv with rfl | rfl | rfl
      · exact lineSafe_natStr _
      · exact lineSafe_natStr _
      · exact lineSafe_natStr _
    · exact lineSafe_ratStr _
    · exact lineSafe_ratStr _
    · exact lineSafe_jsonDateStr _
    · refine lineSafe_jsonObject _ ?_
      intro kv hkv
      rcases List.mem_map.mp hkv with ⟨p, _, rfl⟩
      exact lineSafe_jsonQuote _

/-- A serialized error payload is newline-free. -/
theorem lineSafe_errorObject (e : BatchError) :
    lineSafe (jsonObject (errorFields e)) := by
  refine lineSafe_jsonObject _ ?_
  intro kv hkv
  unfold errorFields at hkv
  rcases hc : e.code with _ | c
  · rw [hc] at hkv
    simp at hkv
    rcases hkv with rfl | rfl
    · exact lineSafe_jsonQuote _
    · exact lineSafe_jsonDateStr _
  · rw [hc] at hkv
    simp at hkv
    rcases hkv with rfl | rfl | rfl
    · exact lineSafe_jsonQuote _
    · exact lineSafe_jsonQuote _
    · exact lineSafe_jsonDateStr _

/-- A serialized `BatchResultItem` is newline-free: each record occupies a
single line of the JSONL log. -/
theorem lineSafe_stringifyItem (it : BatchResultItem) :
    lineSafe (stringifyItem it) := by
  unfold stringifyItem
  refine lineSafe_jsonObject _ ?_
  intro kv hkv
  unfold itemFields at hkv
  rcases hr : it.result with _ | r <;> rcases he : it.error with _ | e <;>
    rw [hr, he] at hkv <;> simp at hkv
  · rcases hkv with rfl | rfl | rfl | rfl | rfl
    · exact lineSafe_jsonQuote _
    · exact lineSafe_jsonQuote _
    · exact lineSafe_natStr _
    · exact lineSafe_jsonQuote _
    · exact lineSafe_jsonDateStr _
  · rcases hkv with rfl | rfl | rfl | rfl | rfl | rfl
    · exact lineSafe_jsonQuote _
    · exact lineSafe_jsonQuote _
    · exact lineSafe_errorObject _
    · exact lineSafe_natStr _
    · exact lineSafe_jsonQuote _
    · exact lineSafe_jsonDateStr _
  · rcases hkv with rfl | rfl | rfl | rfl | rfl | rfl
    · exact lineSafe_jsonQuote _
    · exact lineSafe_jsonQuote _
    · exact lineSafe_stringifyClassificationResult _
    · exact lineSafe_natStr _
    · exact lineSafe_jsonQuote _
    · exact lineSafe_jsonDateStr _
  · rcases hkv with rfl | rfl | rfl | rfl | rfl | rfl | rfl
    · exact lineSafe_jsonQuote _
    · exact lineSafe_jsonQuote _
    · exact lineSafe_stringifyClassificationResult _
    · exact lineSafe_errorObject _
    · exact lineSafe_natStr _
    · exact lineSafe_jsonQuote _
    · exact lineSafe_jsonDateStr _

/-- **C9 (amended).** Every record appended to the result log by
`saveSuccess` / `saveFailure` / `saveSkipped` is written as a single JSON
object on its own line (`JSON.stringify(item) + '\\n'`, and the serialized
object contains no newline character), whose keys are exactly `id`,
`imagePath` (the source reference — the claim's field name `source` does not
occur), `result` or `error` according to the outcome, `attempts`, a `status`
that is one of `success`, `failed`, `skipped`, and `timestamp`. -/
theorem c9_jsonl_record_format (m : BatchResultManager) (now : ℤ) (op : BatchOp) :
    ∃ it, (m.applyOp now op).stream = m.stream ++ [it] ∧
      (m.applyOp now op).stream.map writeLine =
        m.stream.map writeLine ++ [stringifyItem it ++ "\n"] ∧
      lineSafe (stringifyItem it) ∧
      ((it.status = .success ∧ it.result.isSome ∧
        itemKeys it = ["id", "imagePath", "result", "attempts", "status", "timestamp"]) ∨
       ((it.status = .failed ∨ it.status = .skipped) ∧ it.error.isSome ∧
        itemKeys it = ["id", "imagePath", "error", "attempts", "status", "timestamp"])) := by
  cases op with
  | success id imagePath result =>
    refine ⟨_, rfl, by simp [BatchResultManager.applyOp, BatchResultManager.saveSuccess,
      writeLine], lineSafe_stringifyItem _, ?_⟩
    exact Or.inl ⟨rfl, rfl, rfl⟩
  | failure id imagePath message code attempts =>
    refine ⟨_, rfl, by simp [BatchResultManager.applyOp, BatchResultManager.saveFailure,
      writeLine], lineSafe_stringifyItem _, ?_⟩
    exact Or.inr ⟨Or.inl rfl, rfl, rfl⟩
  | skip id imagePath reason =>
    refine ⟨_, rfl, by simp [BatchResultManager.applyOp, BatchResultManager.saveSkipped,
      writeLine], lineSafe_stringifyItem _, ?_⟩
    exact Or.inr ⟨Or.inr rfl, rfl, rfl⟩

/-- **C9 (counterexample to the claim as stated).** The claim names the
source-reference field `source`, but the record a `saveSuccess` call appends
has no key `"source"`: its keys are exactly `id`, `imagePath`, `result`,
`attempts`, `status`, `timestamp`. -/
theorem c9_counterexample :
    ((BatchResultManager.initState "s" 0 1).saveSuccess "item-1" "a.jpg"
      sampleResult 0).stream.map itemKeys =
      [["id", "imagePath", "result", "attempts", "status", "timestamp"]] ∧
    ∀ it ∈ ((BatchResultManager.initState "s" 0 1).saveSuccess "item-1" "a.jpg"
      sampleResult 0).stream, "source" ∉ itemKeys it := by
  constructor
  · with_unfolding_all rfl
  · decide
